import Mathlib

/-!
Shallow embedding of the Pitch Trainer ear-training application (`app.js`).

Conventions of the embedding:
* MIDI pitch indices are modelled as `ℤ` (JavaScript numbers used as integers).
* `Math.random()`-driven choices are modelled by explicit parameters:
  every call of `randomInt(min, max)` receives an arbitrary `r : ℕ` and
  returns `min + r % (max - min + 1)`, which ranges over exactly the values
  the source can produce when `min ≤ max`; the fair coin
  `Math.random() < 0.5` is an arbitrary `Bool` parameter.
* JavaScript's `%` remainder (sign follows the dividend) is `Int.tmod`;
  an out-of-range array read (`undefined`) is modelled by `List.getD`
  with a sentinel default.
* The closed sets of pool-selector strings ('natural'/'chromatic', etc.)
  are modelled as inductive enumerations.
-/

namespace PitchTrainer

/-! ### 1. Constants (`NOTE_NAMES` … `TIMED_DURATION`) -/

def NOTE_NAMES : List String :=
  ["C", "C#", "D", "D#", "E", "F"] ++ ["F#", "G", "G#", "A", "A#", "B"]

def NATURAL_NOTES : List String := ["C", "D", "E", "F", "G", "A", "B"]

structure Interval where
  semitones : ℤ
  name : String
deriving DecidableEq, Repr

def INTERVALS : List Interval :=
  [⟨0, "Unison"⟩, ⟨1, "Minor 2nd"⟩, ⟨2, "Major 2nd"⟩, ⟨3, "Minor 3rd"⟩,
   ⟨4, "Major 3rd"⟩, ⟨5, "Perfect 4th"⟩, ⟨6, "Tritone"⟩, ⟨7, "Perfect 5th"⟩,
   ⟨8, "Minor 6th"⟩, ⟨9, "Major 6th"⟩, ⟨10, "Minor 7th"⟩, ⟨11, "Major 7th"⟩,
   ⟨12, "Octave"⟩]

def EASY_INTERVALS : List ℤ := [0, 2, 4, 5, 7, 12]

structure Chord where
  name : String
  semitones : List ℤ
  pool : String
deriving DecidableEq, Repr

def CHORDS : List Chord :=
  [⟨"Major", [0, 4, 7], "basic"⟩,
   ⟨"Minor", [0, 3, 7], "basic"⟩,
   ⟨"Dim", [0, 3, 6], "triads"⟩,
   ⟨"Aug", [0, 4, 8], "triads"⟩,
   ⟨"Dom7", [0, 4, 7, 10], "seventh"⟩,
   ⟨"Maj7", [0, 4, 7, 11], "seventh"⟩,
   ⟨"Min7", [0, 3, 7, 10], "seventh"⟩,
   ⟨"Dim7", [0, 3, 6, 9], "extended"⟩,
   ⟨"m7b5", [0, 3, 6, 10], "extended"⟩,
   ⟨"Sus2", [0, 2, 7], "extended"⟩,
   ⟨"Sus4", [0, 5, 7], "extended"⟩]

inductive NotePool | natural | chromatic
deriving DecidableEq, Repr

inductive IntervalPool | easy | all | allDescending
deriving DecidableEq, Repr

inductive ChordPool | basic | triads | all
deriving DecidableEq, Repr

/-- `replayLimit` is `none` for the source's `Infinity`. -/
structure DifficultyConfig where
  noteDuration : ℚ
  replayLimit : Option ℕ
  notePool : NotePool
  intervalPool : IntervalPool
  chordPool : ChordPool
deriving DecidableEq, Repr

inductive DifficultyName | easy | medium | hard | adaptive
deriving DecidableEq, Repr

def DIFFICULTY : DifficultyName → DifficultyConfig
  | .easy => ⟨3/2, none, .natural, .easy, .basic⟩
  | .medium => ⟨1, none, .chromatic, .all, .triads⟩
  | .hard => ⟨1/2, some 2, .chromatic, .allDescending, .all⟩
  | .adaptive => ⟨3/2, none, .natural, .easy, .basic⟩

inductive Mode | note | interval | chord
deriving DecidableEq, Repr

/-- One entry of `ADAPTIVE_TIERS`; pools the tier does not set are `none`
(the source fills them with defaults in `getEffectiveDifficulty`). -/
structure AdaptiveTier where
  notePool : Option NotePool
  intervalPool : Option IntervalPool
  chordPool : Option ChordPool
  noteDuration : ℚ
  replayLimit : Option ℕ
  label : String
deriving DecidableEq, Repr

def ADAPTIVE_TIERS : Mode → List AdaptiveTier
  | .note =>
    [⟨some .natural, none, none, 3/2, none, "Natural Notes"⟩,
     ⟨some .chromatic, none, none, 6/5, none, "All Notes"⟩,
     ⟨some .chromatic, none, none, 7/10, some 4, "Fast Chromatic"⟩]
  | .interval =>
    [⟨none, some .easy, none, 3/2, none, "Basic Intervals"⟩,
     ⟨none, some .all, none, 1, none, "All Intervals"⟩,
     ⟨none, some .allDescending, none, 7/10, some 3, "All + Descending"⟩]
  | .chord =>
    [⟨none, none, some .basic, 2, none, "Major & Minor"⟩,
     ⟨none, none, some .triads, 3/2, none, "All Triads"⟩,
     ⟨none, none, some .all, 6/5, some 3, "All Chords"⟩]

def getEffectiveDifficulty (difficulty : DifficultyName) (mode : Mode)
    (tier : ℕ) : DifficultyConfig :=
  if difficulty ≠ .adaptive then DIFFICULTY difficulty
  else
    let tiers := ADAPTIVE_TIERS mode
    let t := min tier (tiers.length - 1)
    let tc := tiers.getD t ⟨none, none, none, 0, none, ""⟩
    ⟨tc.noteDuration, tc.replayLimit, tc.notePool.getD .natural,
     tc.intervalPool.getD .easy, tc.chordPool.getD .basic⟩

/-! ### 2. Pitch range and randomness -/

structure MidiRange where
  low : ℤ
  high : ℤ
deriving DecidableEq, Repr

/-- `getMidiRange`: `low = (octaveMin+1)*12`, `high = (octaveMax+1)*12 + 11`. -/
def getMidiRange (octaveMin octaveMax : ℤ) : MidiRange :=
  ⟨(octaveMin + 1) * 12, (octaveMax + 1) * 12 + 11⟩

/-- `randomInt(min, max) = Math.floor(Math.random()*(max-min+1)) + min`.
The random draw is modelled by `r : ℕ`; for `min ≤ max` the result ranges
over exactly `[min, max]` as `r` varies. -/
def randomInt (lo hi : ℤ) (r : ℕ) : ℤ :=
  lo + (r : ℤ) % (hi - lo + 1)

theorem randomInt_mem (lo hi : ℤ) (r : ℕ) (h : lo ≤ hi) :
    lo ≤ randomInt lo hi r ∧ randomInt lo hi r ≤ hi := by
  unfold randomInt
  have hpos : 0 < hi - lo + 1 := by omega
  have h1 : 0 ≤ (r : ℤ) % (hi - lo + 1) := Int.emod_nonneg _ (by omega)
  have h2 : (r : ℤ) % (hi - lo + 1) < hi - lo + 1 := Int.emod_lt_of_pos _ hpos
  omega

/-- `List.getD` at an in-bounds index is a member of the list. -/
theorem getD_mem {α : Type _} (l : List α) (i : ℕ) (d : α)
    (h : i < l.length) : l.getD i d ∈ l := by
  rw [List.getD_eq_getElem l d h]
  exact List.getElem_mem h

/-! ### 3. Note names and note questions -/

/-- `noteNameFromMidi`: `NOTE_NAMES[midi % 12]` with JavaScript remainder
(`Int.tmod`, sign of the dividend); a negative index reads `undefined`,
modelled as `""`. -/
def noteNameFromMidi (midi : ℤ) : String :=
  let i := Int.tmod midi 12
  if i < 0 then "" else NOTE_NAMES.getD i.toNat ""

/-- The candidate list built by the `for` loop in `generateNoteQuestion`:
all `m` with `low ≤ m ≤ high` whose name is one of `NATURAL_NOTES`. -/
def naturalsInRange (range : MidiRange) : List ℤ :=
  (((List.range (range.high + 1 - range.low).toNat).map
      (fun (i : ℕ) => range.low + (i : ℤ))).filter
    (fun m => NATURAL_NOTES.contains (noteNameFromMidi m)))

structure NoteQ where
  midi : ℤ
  answer : String
deriving DecidableEq, Repr

def generateNoteQuestion (range : MidiRange) (diff : DifficultyConfig)
    (r : ℕ) : NoteQ :=
  if diff.notePool = .natural then
    let naturals := naturalsInRange range
    let midi := naturals.getD (randomInt 0 ((naturals.length : ℤ) - 1) r).toNat 0
    ⟨midi, noteNameFromMidi midi⟩
  else
    let midi := randomInt range.low range.high r
    ⟨midi, noteNameFromMidi midi⟩

theorem mem_naturalsInRange {range : MidiRange} {m : ℤ}
    (h : m ∈ naturalsInRange range) :
    range.low ≤ m ∧ m ≤ range.high ∧
      NATURAL_NOTES.contains (noteNameFromMidi m) = true := by
  unfold naturalsInRange at h
  simp only [List.mem_filter, List.mem_map, List.mem_range] at h
  obtain ⟨⟨i, hi, rfl⟩, hnat⟩ := h
  exact ⟨by omega, by omega, hnat⟩

/-! ### 4. Interval questions -/

def intervalPoolFor (diff : DifficultyConfig) : List Interval :=
  if diff.intervalPool = .easy then
    INTERVALS.filter (fun i => EASY_INTERVALS.contains i.semitones)
  else INTERVALS

/-- `pool[randomInt(0, pool.length - 1)]`. -/
def selectedInterval (diff : DifficultyConfig) (r : ℕ) : Interval :=
  let pool := intervalPoolFor diff
  pool.getD (randomInt 0 ((pool.length : ℤ) - 1) r).toNat ⟨0, ""⟩

structure IntervalQ where
  midi1 : ℤ
  midi2 : ℤ
  semitones : ℤ
  ascending : Bool
  answer : String
deriving DecidableEq, Repr

/-- `generateIntervalQuestion`; `coin` models `Math.random() < 0.5`. -/
def generateIntervalQuestion (range : MidiRange) (diff : DifficultyConfig)
    (rIdx : ℕ) (coin : Bool) (rRoot : ℕ) : IntervalQ :=
  let interval := selectedInterval diff rIdx
  let ascending : Bool :=
    if diff.intervalPool = .allDescending ∧ interval.semitones > 0 then coin
    else true
  if ascending then
    let midi1 := randomInt range.low (max range.low (range.high - interval.semitones)) rRoot
    ⟨midi1, midi1 + interval.semitones, interval.semitones, true, interval.name⟩
  else
    let midi1 := randomInt (min range.high (range.low + interval.semitones)) range.high rRoot
    ⟨midi1, midi1 - interval.semitones, interval.semitones, false,
      interval.name ++ " (desc)"⟩

/-! ### 5. Chord questions -/

def chordPoolFor (diff : DifficultyConfig) : List Chord :=
  if diff.chordPool = .basic then
    CHORDS.filter (fun c => c.pool == "basic")
  else if diff.chordPool = .triads then
    CHORDS.filter (fun c => c.pool == "basic" || c.pool == "triads")
  else CHORDS

def selectedChord (diff : DifficultyConfig) (r : ℕ) : Chord :=
  let pool := chordPoolFor diff
  pool.getD (randomInt 0 ((pool.length : ℤ) - 1) r).toNat ⟨"", [], ""⟩

/-- `Math.max.apply(null, chord.semitones)`; every chord's offset list is
nonempty and contains `0`, so folding `max` from `0` equals the JS maximum. -/
def maxSemitone (c : Chord) : ℤ := c.semitones.foldr max 0

structure ChordQ where
  rootMidi : ℤ
  midiNotes : List ℤ
  answer : String
deriving DecidableEq, Repr

def generateChordQuestion (range : MidiRange) (diff : DifficultyConfig)
    (rChord rRoot : ℕ) : ChordQ :=
  let chord := selectedChord diff rChord
  let rootMidi :=
    randomInt range.low (max range.low (range.high - maxSemitone chord)) rRoot
  ⟨rootMidi, chord.semitones.map (fun s => rootMidi + s), chord.name⟩

/-! ### 6. Question dispatch and answer choices -/

inductive Question
  | note (q : NoteQ)
  | interval (q : IntervalQ)
  | chord (q : ChordQ)
deriving DecidableEq, Repr

def Question.answer : Question → String
  | .note q => q.answer
  | .interval q => q.answer
  | .chord q => q.answer

def generateQuestion (mode : Mode) (range : MidiRange)
    (diff : DifficultyConfig) (r1 r2 : ℕ) (coin : Bool) : Question :=
  match mode with
  | .note => .note (generateNoteQuestion range diff r1)
  | .interval => .interval (generateIntervalQuestion range diff r1 coin r2)
  | .chord => .chord (generateChordQuestion range diff r1 r2)

def getNoteChoices (diff : DifficultyConfig) : List String :=
  if diff.notePool = .natural then NATURAL_NOTES else NOTE_NAMES

def getIntervalChoices (diff : DifficultyConfig) : List String :=
  if diff.intervalPool = .easy then
    (INTERVALS.filter (fun i => EASY_INTERVALS.contains i.semitones)).map
      (fun i => i.name)
  else
    let names := INTERVALS.map (fun i => i.name)
    if diff.intervalPool = .allDescending then
      names ++ (INTERVALS.filter (fun i => i.semitones > 0)).map
        (fun i => i.name ++ " (desc)")
    else names

def getChordChoices (diff : DifficultyConfig) : List String :=
  if diff.chordPool = .basic then
    (CHORDS.filter (fun c => c.pool == "basic")).map (fun c => c.name)
  else if diff.chordPool = .triads then
    (CHORDS.filter (fun c => c.pool == "basic" || c.pool == "triads")).map
      (fun c => c.name)
  else CHORDS.map (fun c => c.name)

def getChoices (mode : Mode) (diff : DifficultyConfig) : List String :=
  match mode with
  | .note => getNoteChoices diff
  | .interval => getIntervalChoices diff
  | .chord => getChordChoices diff

/-! ### 7. Selection lemmas -/

theorem intervalPoolFor_length_pos (diff : DifficultyConfig) :
    0 < (intervalPoolFor diff).length := by
  unfold intervalPoolFor
  split <;> decide

theorem intervalPoolFor_subset (diff : DifficultyConfig) :
    intervalPoolFor diff ⊆ INTERVALS := by
  unfold intervalPoolFor
  split
  · exact (List.filter_sublist _).subset
  · exact fun _ h => h

theorem selectedInterval_mem_pool (diff : DifficultyConfig) (r : ℕ) :
    selectedInterval diff r ∈ intervalPoolFor diff := by
  have hlen := intervalPoolFor_length_pos diff
  have hr := randomInt_mem 0 (((intervalPoolFor diff).length : ℤ) - 1) r (by omega)
  exact getD_mem _ _ _ (by omega)

theorem selectedInterval_mem (diff : DifficultyConfig) (r : ℕ) :
    selectedInterval diff r ∈ INTERVALS :=
  intervalPoolFor_subset diff (selectedInterval_mem_pool diff r)

theorem interval_semitones_bounds {i : Interval} (h : i ∈ INTERVALS) :
    0 ≤ i.semitones ∧ i.semitones ≤ 12 := by
  fin_cases h <;> decide

theorem chordPoolFor_length_pos (diff : DifficultyConfig) :
    0 < (chordPoolFor diff).length := by
  unfold chordPoolFor
  split
  · decide
  · split <;> decide

theorem chordPoolFor_subset (diff : DifficultyConfig) :
    chordPoolFor diff ⊆ CHORDS := by
  unfold chordPoolFor
  split
  · exact (List.filter_sublist _).subset
  · split
    · exact (List.filter_sublist _).subset
    · exact fun _ h => h

theorem selectedChord_mem_pool (diff : DifficultyConfig) (r : ℕ) :
    selectedChord diff r ∈ chordPoolFor diff := by
  have hlen := chordPoolFor_length_pos diff
  have hr := randomInt_mem 0 (((chordPoolFor diff).length : ℤ) - 1) r (by omega)
  exact getD_mem _ _ _ (by omega)

theorem selectedChord_mem (diff : DifficultyConfig) (r : ℕ) :
    selectedChord diff r ∈ CHORDS :=
  chordPoolFor_subset diff (selectedChord_mem_pool diff r)

theorem chord_semitone_bounds {c : Chord} (h : c ∈ CHORDS) :
    (∀ s ∈ c.semitones, 0 ≤ s ∧ s ≤ maxSemitone c) ∧
      0 ≤ maxSemitone c ∧ maxSemitone c ≤ 11 ∧
      c.semitones.Pairwise (fun a b => a < b) := by
  fin_cases h <;> decide

/-! ### 8. Branch computation lemmas for the generators -/

theorem generateIntervalQuestion_asc (range : MidiRange)
    (diff : DifficultyConfig) (rIdx : ℕ) (coin : Bool) (rRoot : ℕ)
    (h : (if diff.intervalPool = .allDescending ∧
            (selectedInterval diff rIdx).semitones > 0 then coin else true)
          = true) :
    generateIntervalQuestion range diff rIdx coin rRoot =
      ⟨randomInt range.low
          (max range.low (range.high - (selectedInterval diff rIdx).semitones))
          rRoot,
        randomInt range.low
          (max range.low (range.high - (selectedInterval diff rIdx).semitones))
          rRoot + (selectedInterval diff rIdx).semitones,
        (selectedInterval diff rIdx).semitones, true,
        (selectedInterval diff rIdx).name⟩ := by
  unfold generateIntervalQuestion
  simp only [h, if_true]

theorem generateIntervalQuestion_desc (range : MidiRange)
    (diff : DifficultyConfig) (rIdx : ℕ) (coin : Bool) (rRoot : ℕ)
    (h : (if diff.intervalPool = .allDescending ∧
            (selectedInterval diff rIdx).semitones > 0 then coin else true)
          = false) :
    generateIntervalQuestion range diff rIdx coin rRoot =
      ⟨randomInt
          (min range.high (range.low + (selectedInterval diff rIdx).semitones))
          range.high rRoot,
        randomInt
          (min range.high (range.low + (selectedInterval diff rIdx).semitones))
          range.high rRoot - (selectedInterval diff rIdx).semitones,
        (selectedInterval diff rIdx).semitones, false,
        (selectedInterval diff rIdx).name ++ " (desc)"⟩ := by
  unfold generateIntervalQuestion
  simp only [h, Bool.false_eq_true, if_false]

/-- A descending question is only produced when the `all+descending` pool is
active and the chosen interval is non-zero. -/
theorem desc_implies_pool (diff : DifficultyConfig) (rIdx : ℕ) (coin : Bool)
    (h : (if diff.intervalPool = .allDescending ∧
            (selectedInterval diff rIdx).semitones > 0 then coin else true)
          = false) :
    diff.intervalPool = .allDescending ∧
      (selectedInterval diff rIdx).semitones > 0 := by
  by_cases hc : diff.intervalPool = .allDescending ∧
      (selectedInterval diff rIdx).semitones > 0
  · exact hc
  · rw [if_neg hc] at h
    exact absurd h (by simp)

/-! ### 9. Claim theorems: note and interval generation -/

/-- C2: for every valid pitch range (`low ≤ high`, with at least one natural
note in range when the natural pool is active) and every difficulty
configuration, `generateNoteQuestion` yields a pitch within `[low, high]`;
with the `natural` pool the pitch class is one of the seven natural letter
names; the answer is the note name of the pitch. -/
theorem generateNoteQuestion_spec (low high : ℤ) (diff : DifficultyConfig)
    (r : ℕ) (hlh : low ≤ high)
    (hnat : diff.notePool = .natural → naturalsInRange ⟨low, high⟩ ≠ []) :
    (low ≤ (generateNoteQuestion ⟨low, high⟩ diff r).midi ∧
        (generateNoteQuestion ⟨low, high⟩ diff r).midi ≤ high) ∧
      (diff.notePool = .natural →
        NATURAL_NOTES.contains
          (noteNameFromMidi (generateNoteQuestion ⟨low, high⟩ diff r).midi)
          = true) ∧
      (generateNoteQuestion ⟨low, high⟩ diff r).answer =
        noteNameFromMidi (generateNoteQuestion ⟨low, high⟩ diff r).midi := by
  by_cases hp : diff.notePool = .natural
  · have hne := hnat hp
    have hlen : 0 < (naturalsInRange ⟨low, high⟩).length :=
      List.length_pos.mpr hne
    have hq : generateNoteQuestion ⟨low, high⟩ diff r =
        ⟨(naturalsInRange ⟨low, high⟩).getD
            (randomInt 0 (((naturalsInRange ⟨low, high⟩).length : ℤ) - 1) r).toNat 0,
          noteNameFromMidi
            ((naturalsInRange ⟨low, high⟩).getD
              (randomInt 0 (((naturalsInRange ⟨low, high⟩).length : ℤ) - 1) r).toNat 0)⟩ := by
      unfold generateNoteQuestion
      rw [if_pos hp]
    have hr := randomInt_mem 0 (((naturalsInRange ⟨low, high⟩).length : ℤ) - 1)
      r (by omega)
    have hmem := getD_mem (naturalsInRange ⟨low, high⟩)
      (randomInt 0 (((naturalsInRange ⟨low, high⟩).length : ℤ) - 1) r).toNat
      (0 : ℤ) (by omega)
    have hb := mem_naturalsInRange hmem
    rw [hq]
    exact ⟨⟨hb.1, hb.2.1⟩, fun _ => hb.2.2, rfl⟩
  · have hq : generateNoteQuestion ⟨low, high⟩ diff r =
        ⟨randomInt low high r, noteNameFromMidi (randomInt low high r)⟩ := by
      unfold generateNoteQuestion
      rw [if_neg hp]
    have hr := randomInt_mem low high r hlh
    rw [hq]
    exact ⟨hr, fun h => absurd h hp, rfl⟩

/-- Witness for `generateNoteQuestion_spec` at range `[60, 72]`, easy
difficulty, draw 5. -/
theorem generateNoteQuestion_spec_witness :
    (60 : ℤ) ≤ 72 ∧
      ((60 ≤ (generateNoteQuestion ⟨60, 72⟩ (DIFFICULTY .easy) 5).midi ∧
          (generateNoteQuestion ⟨60, 72⟩ (DIFFICULTY .easy) 5).midi ≤ 72) ∧
        ((DIFFICULTY .easy).notePool = .natural →
          NATURAL_NOTES.contains
            (noteNameFromMidi
              (generateNoteQuestion ⟨60, 72⟩ (DIFFICULTY .easy) 5).midi)
            = true) ∧
        (generateNoteQuestion ⟨60, 72⟩ (DIFFICULTY .easy) 5).answer =
          noteNameFromMidi
            (generateNoteQuestion ⟨60, 72⟩ (DIFFICULTY .easy) 5).midi) :=
  ⟨by decide,
    generateNoteQuestion_spec 60 72 (DIFFICULTY .easy) 5 (by decide)
      (fun _ => by decide)⟩

/-- C1 (as amended): for `low ≤ high`, an interval question always satisfies
`|midi2 − midi1| = semitones` (the chosen interval's distance), `midi1` lies
within `[low, high]`, and direction is ascending whenever the effective pool
is not `all+descending`; `midi2` also lies within `[low, high]` whenever the
range spans the chosen interval (`semitones ≤ high − low`); when it does not,
the root range is clamped to the single value `low` (ascending) or `high`
(descending) and a question is still returned. -/
theorem generateIntervalQuestion_spec (low high : ℤ) (diff : DifficultyConfig)
    (rIdx rRoot : ℕ) (coin : Bool) (q : IntervalQ)
    (hq : q = generateIntervalQuestion ⟨low, high⟩ diff rIdx coin rRoot)
    (hlh : low ≤ high) :
    |q.midi2 - q.midi1| = q.semitones ∧
      q.semitones = (selectedInterval diff rIdx).semitones ∧
      (low ≤ q.midi1 ∧ q.midi1 ≤ high) ∧
      (q.semitones ≤ high - low → low ≤ q.midi2 ∧ q.midi2 ≤ high) ∧
      (diff.intervalPool ≠ .allDescending → q.ascending = true) ∧
      (q.ascending = true → q.midi2 = q.midi1 + q.semitones) ∧
      (q.ascending = false → q.midi2 = q.midi1 - q.semitones) ∧
      (high - low < q.semitones →
        (q.ascending = true → q.midi1 = low) ∧
          (q.ascending = false → q.midi1 = high)) := by
  obtain ⟨hs0, hs12⟩ :=
    interval_semitones_bounds (selectedInterval_mem diff rIdx)
  rcases hb : (if diff.intervalPool = .allDescending ∧
      (selectedInterval diff rIdx).semitones > 0 then coin else true) with _ | _
  · -- descending branch
    obtain ⟨hpool, hspos⟩ := desc_implies_pool diff rIdx coin hb
    rw [generateIntervalQuestion_desc _ _ _ _ _ hb] at hq
    subst hq
    dsimp only
    have hlo : min high (low + (selectedInterval diff rIdx).semitones) ≤ high :=
      min_le_left _ _
    have hr := randomInt_mem
      (min high (low + (selectedInterval diff rIdx).semitones)) high rRoot hlo
    refine ⟨?_, rfl, ?_, ?_, ?_, ?_, ?_, ?_⟩
    · rw [abs_of_nonpos (by omega)]
      ring
    · constructor
      · refine le_trans ?_ hr.1
        exact le_min hlh (by omega)
      · exact hr.2
    · intro hspan
      omega
    · intro hne
      exact absurd hpool hne
    · intro h
      exact absurd h (by simp)
    · intro _
      rfl
    · intro hspan
      exact ⟨fun h => absurd h (by simp), fun _ => by omega⟩
  · -- ascending branch
    rw [generateIntervalQuestion_asc _ _ _ _ _ hb] at hq
    subst hq
    dsimp only
    have hhi : low ≤ max low (high - (selectedInterval diff rIdx).semitones) :=
      le_max_left _ _
    have hr := randomInt_mem low
      (max low (high - (selectedInterval diff rIdx).semitones)) rRoot hhi
    refine ⟨?_, rfl, ?_, ?_, ?_, ?_, ?_, ?_⟩
    · rw [abs_of_nonneg (by omega)]
      ring
    · constructor
      · exact hr.1
      · refine le_trans hr.2 ?_
        exact max_le hlh (by omega)
    · intro hspan
      omega
    · intro _
      rfl
    · intro _
      rfl
    · intro h
      exact absurd h (by simp)
    · intro hspan
      refine ⟨fun _ => ?_, fun h => absurd h (by simp)⟩
      omega

/-- Witness for `generateIntervalQuestion_spec`: range `[48, 83]`, hard
difficulty, draws `3`, `false`, `7`. -/
theorem generateIntervalQuestion_spec_witness :
    ((generateIntervalQuestion ⟨48, 83⟩ (DIFFICULTY .hard) 3 false 7) =
        generateIntervalQuestion ⟨48, 83⟩ (DIFFICULTY .hard) 3 false 7 ∧
      (48 : ℤ) ≤ 83) ∧
      (|(generateIntervalQuestion ⟨48, 83⟩ (DIFFICULTY .hard) 3 false 7).midi2 -
          (generateIntervalQuestion ⟨48, 83⟩ (DIFFICULTY .hard) 3 false 7).midi1|
          = (generateIntervalQuestion ⟨48, 83⟩ (DIFFICULTY .hard) 3 false 7).semitones ∧
        (generateIntervalQuestion ⟨48, 83⟩ (DIFFICULTY .hard) 3 false 7).semitones
          = (selectedInterval (DIFFICULTY .hard) 3).semitones ∧
        (48 ≤ (generateIntervalQuestion ⟨48, 83⟩ (DIFFICULTY .hard) 3 false 7).midi1 ∧
          (generateIntervalQuestion ⟨48, 83⟩ (DIFFICULTY .hard) 3 false 7).midi1 ≤ 83) ∧
        ((generateIntervalQuestion ⟨48, 83⟩ (DIFFICULTY .hard) 3 false 7).semitones ≤ 83 - 48 →
          48 ≤ (generateIntervalQuestion ⟨48, 83⟩ (DIFFICULTY .hard) 3 false 7).midi2 ∧
            (generateIntervalQuestion ⟨48, 83⟩ (DIFFICULTY .hard) 3 false 7).midi2 ≤ 83) ∧
        ((DIFFICULTY .hard).intervalPool ≠ .allDescending →
          (generateIntervalQuestion ⟨48, 83⟩ (DIFFICULTY .hard) 3 false 7).ascending = true) ∧
        ((generateIntervalQuestion ⟨48, 83⟩ (DIFFICULTY .hard) 3 false 7).ascending = true →
          (generateIntervalQuestion ⟨48, 83⟩ (DIFFICULTY .hard) 3 false 7).midi2 =
            (generateIntervalQuestion ⟨48, 83⟩ (DIFFICULTY .hard) 3 false 7).midi1 +
              (generateIntervalQuestion ⟨48, 83⟩ (DIFFICULTY .hard) 3 false 7).semitones) ∧
        ((generateIntervalQuestion ⟨48, 83⟩ (DIFFICULTY .hard) 3 false 7).ascending = false →
          (generateIntervalQuestion ⟨48, 83⟩ (DIFFICULTY .hard) 3 false 7).midi2 =
            (generateIntervalQuestion ⟨48, 83⟩ (DIFFICULTY .hard) 3 false 7).midi1 -
              (generateIntervalQuestion ⟨48, 83⟩ (DIFFICULTY .hard) 3 false 7).semitones) ∧
        (83 - 48 < (generateIntervalQuestion ⟨48, 83⟩ (DIFFICULTY .hard) 3 false 7).semitones →
          ((generateIntervalQuestion ⟨48, 83⟩ (DIFFICULTY .hard) 3 false 7).ascending = true →
            (generateIntervalQuestion ⟨48, 83⟩ (DIFFICULTY .hard) 3 false 7).midi1 = 48) ∧
            ((generateIntervalQuestion ⟨48, 83⟩ (DIFFICULTY .hard) 3 false 7).ascending = false →
              (generateIntervalQuestion ⟨48, 83⟩ (DIFFICULTY .hard) 3 false 7).midi1 = 83))) :=
  ⟨⟨rfl, by decide⟩,
    generateIntervalQuestion_spec 48 83 (DIFFICULTY .hard) 3 7 false
      (generateIntervalQuestion ⟨48, 83⟩ (DIFFICULTY .hard) 3 false 7) rfl
      (by decide)⟩

/-- C1 counterexample: with the degenerate range `[60, 60]` and the full
interval pool, draw 12 selects the Octave; the clamped root is 60 and
`midi2 = 72` falls outside the range, refuting the unconditional in-range
part of the claim. -/
theorem generateIntervalQuestion_out_of_range :
    ((generateIntervalQuestion ⟨60, 60⟩ ⟨1, none, .chromatic, .all, .basic⟩
        12 true 0).semitones = 12) ∧
      ((generateIntervalQuestion ⟨60, 60⟩ ⟨1, none, .chromatic, .all, .basic⟩
        12 true 0).midi1 = 60) ∧
      ((generateIntervalQuestion ⟨60, 60⟩ ⟨1, none, .chromatic, .all, .basic⟩
        12 true 0).midi2 = 72) ∧
      ¬((generateIntervalQuestion ⟨60, 60⟩ ⟨1, none, .chromatic, .all, .basic⟩
        12 true 0).midi2 ≤ 60) := by
  decide

/-! ### 10. Claim theorem: chord generation -/

/-- C3: when the range spans the selected chord's maximum semitone offset,
every emitted pitch lies within `[low, high]`, the offsets of `midiNotes`
from `rootMidi` are exactly the chord's defining semitone set, the pitches
are emitted in ascending offset order, and the answer is the chord's name;
in particular a Major chord from root 60 yields pitches `[60, 64, 67]`. -/
theorem generateChordQuestion_spec (low high : ℤ) (diff : DifficultyConfig)
    (rChord rRoot : ℕ) (q : ChordQ) (c : Chord)
    (hq : q = generateChordQuestion ⟨low, high⟩ diff rChord rRoot)
    (hc : c = selectedChord diff rChord)
    (hspan : maxSemitone c ≤ high - low) :
    (∀ m ∈ q.midiNotes, low ≤ m ∧ m ≤ high) ∧
      q.midiNotes.map (fun m => m - q.rootMidi) = c.semitones ∧
      q.midiNotes.Pairwise (fun a b => a < b) ∧
      q.answer = c.name ∧
      (low ≤ q.rootMidi ∧ q.rootMidi ≤ high) ∧
      (generateChordQuestion ⟨60, 72⟩ (DIFFICULTY .easy) 0 0).midiNotes =
        [60, 64, 67] := by
  obtain ⟨hsb, hms0, hms11, hsorted⟩ :=
    chord_semitone_bounds (selectedChord_mem diff rChord)
  subst hc
  subst hq
  unfold generateChordQuestion
  dsimp only
  have hhi : low ≤ max low (high - maxSemitone (selectedChord diff rChord)) :=
    le_max_left _ _
  have hr := randomInt_mem low
    (max low (high - maxSemitone (selectedChord diff rChord))) rRoot hhi
  refine ⟨?_, ?_, ?_, rfl, ?_, by decide⟩
  · intro m hm
    rcases List.mem_map.mp hm with ⟨s, hs, rfl⟩
    obtain ⟨hs0, hsmax⟩ := hsb s hs
    omega
  · rw [List.map_map]
    have : ((fun m => m - randomInt low
          (max low (high - maxSemitone (selectedChord diff rChord))) rRoot) ∘
        (fun s => randomInt low
          (max low (high - maxSemitone (selectedChord diff rChord))) rRoot + s))
        = id := by
      funext s
      simp
    rw [this, List.map_id]
  · exact hsorted.map _ (fun a b hab => by omega)
  · omega

/-- Witness for `generateChordQuestion_spec`: range `[60, 72]`, easy
difficulty, draws `0`, `0` (a Major chord rooted at 60). -/
theorem generateChordQuestion_spec_witness :
    (maxSemitone (selectedChord (DIFFICULTY .easy) 0) ≤ 72 - 60) ∧
      ((∀ m ∈ (generateChordQuestion ⟨60, 72⟩ (DIFFICULTY .easy) 0 0).midiNotes,
          (60 : ℤ) ≤ m ∧ m ≤ 72) ∧
        (generateChordQuestion ⟨60, 72⟩ (DIFFICULTY .easy) 0 0).midiNotes.map
            (fun m => m - (generateChordQuestion ⟨60, 72⟩ (DIFFICULTY .easy) 0 0).rootMidi)
          = (selectedChord (DIFFICULTY .easy) 0).semitones ∧
        (generateChordQuestion ⟨60, 72⟩ (DIFFICULTY .easy) 0 0).midiNotes.Pairwise
          (fun a b => a < b) ∧
        (generateChordQuestion ⟨60, 72⟩ (DIFFICULTY .easy) 0 0).answer =
          (selectedChord (DIFFICULTY .easy) 0).name ∧
        ((60 : ℤ) ≤ (generateChordQuestion ⟨60, 72⟩ (DIFFICULTY .easy) 0 0).rootMidi ∧
          (generateChordQuestion ⟨60, 72⟩ (DIFFICULTY .easy) 0 0).rootMidi ≤ 72) ∧
        (generateChordQuestion ⟨60, 72⟩ (DIFFICULTY .easy) 0 0).midiNotes =
          [60, 64, 67]) :=
  ⟨by decide,
    generateChordQuestion_spec 60 72 (DIFFICULTY .easy) 0 0
      (generateChordQuestion ⟨60, 72⟩ (DIFFICULTY .easy) 0 0)
      (selectedChord (DIFFICULTY .easy) 0) rfl rfl (by decide)⟩

/-! ### 11. Range safety -/

theorem noteNameFromMidi_of_multiple (x : ℤ) :
    noteNameFromMidi (x * 12) = "C" := by
  simp only [noteNameFromMidi, Int.mul_tmod_left]
  decide

theorem noteNameFromMidi_mem {m : ℤ} (hm : 0 ≤ m) :
    noteNameFromMidi m ∈ NOTE_NAMES := by
  have h0 : 0 ≤ Int.tmod m 12 := Int.tmod_nonneg _ hm
  have h12 : Int.tmod m 12 < 12 := Int.tmod_lt_of_pos m (by omega)
  have hlen : NOTE_NAMES.length = 12 := rfl
  simp only [noteNameFromMidi]
  rw [if_neg (by omega)]
  exact getD_mem _ _ _ (by omega)

theorem low_mem_naturalsInRange (oMin oMax : ℤ) (h : oMin ≤ oMax) :
    (getMidiRange oMin oMax).low ∈ naturalsInRange (getMidiRange oMin oMax) := by
  unfold naturalsInRange
  apply List.mem_filter.mpr
  refine ⟨List.mem_map.mpr ⟨0, List.mem_range.mpr ?_, by simp⟩, ?_⟩
  · dsimp only [getMidiRange]
    omega
  · have hC : noteNameFromMidi (getMidiRange oMin oMax).low = "C" :=
      noteNameFromMidi_of_multiple (oMin + 1)
    rw [hC]
    decide

/-- C10: with `octaveMin < octaveMax` the MIDI range spans
`12·(octaveMax − octaveMin) + 11 ≥ 23` semitones, the natural-note candidate
set is nonempty, and for every interval (≤ 12 semitones) and every chord
(max offset ≤ 11) the `Math.max`/`Math.min` clamping fallbacks are the
identity, i.e. the degenerate branches are never taken. -/
theorem getMidiRange_safety (oMin oMax : ℤ) (R : MidiRange)
    (hR : R = getMidiRange oMin oMax) (h : oMin < oMax) :
    R.high - R.low = 12 * (oMax - oMin) + 11 ∧
      23 ≤ R.high - R.low ∧
      naturalsInRange R ≠ [] ∧
      (∀ i ∈ INTERVALS, i.semitones ≤ 12 ∧
        max R.low (R.high - i.semitones) = R.high - i.semitones ∧
        min R.high (R.low + i.semitones) = R.low + i.semitones) ∧
      (∀ c ∈ CHORDS, maxSemitone c ≤ 11 ∧
        max R.low (R.high - maxSemitone c) = R.high - maxSemitone c) := by
  have hspan : R.high - R.low = 12 * (oMax - oMin) + 11 := by
    rw [hR]; dsimp only [getMidiRange]; ring
  refine ⟨hspan, by omega, ?_, ?_, ?_⟩
  · rw [hR]
    exact List.ne_nil_of_mem (low_mem_naturalsInRange oMin oMax (le_of_lt h))
  · intro i hi
    obtain ⟨h0, h12⟩ := interval_semitones_bounds hi
    exact ⟨h12, max_eq_right (by omega), min_eq_right (by omega)⟩
  · intro c hc
    obtain ⟨-, hms0, hms11, -⟩ := chord_semitone_bounds hc
    exact ⟨hms11, max_eq_right (by omega)⟩

/-- Witness for `getMidiRange_safety` at the default octave settings 3–5. -/
theorem getMidiRange_safety_witness :
    ((getMidiRange 3 5 = getMidiRange 3 5) ∧ (3 : ℤ) < 5) ∧
      ((getMidiRange 3 5).high - (getMidiRange 3 5).low = 12 * (5 - 3) + 11 ∧
        23 ≤ (getMidiRange 3 5).high - (getMidiRange 3 5).low ∧
        naturalsInRange (getMidiRange 3 5) ≠ [] ∧
        (∀ i ∈ INTERVALS, i.semitones ≤ 12 ∧
          max (getMidiRange 3 5).low ((getMidiRange 3 5).high - i.semitones)
              = (getMidiRange 3 5).high - i.semitones ∧
          min (getMidiRange 3 5).high ((getMidiRange 3 5).low + i.semitones)
              = (getMidiRange 3 5).low + i.semitones) ∧
        (∀ c ∈ CHORDS, maxSemitone c ≤ 11 ∧
          max (getMidiRange 3 5).low ((getMidiRange 3 5).high - maxSemitone c)
              = (getMidiRange 3 5).high - maxSemitone c)) :=
  ⟨⟨rfl, by decide⟩,
    getMidiRange_safety 3 5 (getMidiRange 3 5) rfl (by decide)⟩

/-! ### 12. Answers are always among the offered choices -/

theorem noteQuestion_answer_mem (range : MidiRange) (diff : DifficultyConfig)
    (r : ℕ) (hlow0 : 0 ≤ range.low) (hlh : range.low ≤ range.high)
    (hne : naturalsInRange range ≠ []) :
    (generateNoteQuestion range diff r).answer ∈ getNoteChoices diff := by
  unfold generateNoteQuestion getNoteChoices
  by_cases hp : diff.notePool = .natural
  · rw [if_pos hp, if_pos hp]
    dsimp only
    have hlen : 0 < (naturalsInRange range).length := List.length_pos.mpr hne
    have hr := randomInt_mem 0 (((naturalsInRange range).length : ℤ) - 1) r
      (by omega)
    have hmem := getD_mem (naturalsInRange range)
      (randomInt 0 (((naturalsInRange range).length : ℤ) - 1) r).toNat
      (0 : ℤ) (by omega)
    exact List.elem_iff.mp (mem_naturalsInRange hmem).2.2
  · rw [if_neg hp, if_neg hp]
    dsimp only
    have hr := randomInt_mem range.low range.high r hlh
    exact noteNameFromMidi_mem (by omega)

theorem intervalQuestion_answer_mem (range : MidiRange)
    (diff : DifficultyConfig) (rIdx : ℕ) (coin : Bool) (rRoot : ℕ) :
    (generateIntervalQuestion range diff rIdx coin rRoot).answer
      ∈ getIntervalChoices diff := by
  rcases hb : (if diff.intervalPool = .allDescending ∧
      (selectedInterval diff rIdx).semitones > 0 then coin else true) with _ | _
  · obtain ⟨hpool, hspos⟩ := desc_implies_pool diff rIdx coin hb
    rw [generateIntervalQuestion_desc _ _ _ _ _ hb]
    dsimp only
    unfold getIntervalChoices
    rw [if_neg (by rw [hpool]; intro hfalse; exact absurd hfalse (by decide))]
    rw [if_pos hpool]
    refine List.mem_append_right _ (List.mem_map.mpr ⟨selectedInterval diff rIdx,
      List.mem_filter.mpr ⟨selectedInterval_mem diff rIdx, decide_eq_true hspos⟩,
      rfl⟩)
  · rw [generateIntervalQuestion_asc _ _ _ _ _ hb]
    dsimp only
    unfold getIntervalChoices
    by_cases he : diff.intervalPool = .easy
    · rw [if_pos he]
      have hmem := selectedInterval_mem_pool diff rIdx
      rw [intervalPoolFor, if_pos he] at hmem
      exact List.mem_map.mpr ⟨selectedInterval diff rIdx, hmem, rfl⟩
    · rw [if_neg he]
      dsimp only
      by_cases hd : diff.intervalPool = .allDescending
      · rw [if_pos hd]
        exact List.mem_append_left _
          (List.mem_map.mpr ⟨selectedInterval diff rIdx,
            selectedInterval_mem diff rIdx, rfl⟩)
      · rw [if_neg hd]
        exact List.mem_map.mpr ⟨selectedInterval diff rIdx,
          selectedInterval_mem diff rIdx, rfl⟩

theorem chordQuestion_answer_mem (range : MidiRange)
    (diff : DifficultyConfig) (rChord rRoot : ℕ) :
    (generateChordQuestion range diff rChord rRoot).answer
      ∈ getChordChoices diff := by
  unfold generateChordQuestion
  dsimp only
  have hmem := selectedChord_mem_pool diff rChord
  unfold chordPoolFor at hmem
  unfold getChordChoices
  by_cases h1 : diff.chordPool = .basic
  · rw [if_pos h1] at hmem ⊢
    exact List.mem_map.mpr ⟨selectedChord diff rChord, hmem, rfl⟩
  · rw [if_neg h1] at hmem ⊢
    by_cases h2 : diff.chordPool = .triads
    · rw [if_pos h2] at hmem ⊢
      exact List.mem_map.mpr ⟨selectedChord diff rChord, hmem, rfl⟩
    · rw [if_neg h2] at hmem ⊢
      exact List.mem_map.mpr ⟨selectedChord diff rChord, hmem, rfl⟩

/-- C9: for every mode and difficulty configuration (and any octave settings
with `-1 ≤ octaveMin ≤ octaveMax`, so that pitches are valid indices), the
correct answer of a freshly generated question is a member of the choice
list `getChoices` produces for the same mode and configuration; moreover a
descending label is generated only when the effective pool is
`all+descending` and the chosen interval is non-zero. -/
theorem generateQuestion_answer_mem_choices (mode : Mode)
    (diff : DifficultyConfig) (oMin oMax : ℤ) (r1 r2 : ℕ) (coin : Bool)
    (h0 : -1 ≤ oMin) (h1 : oMin ≤ oMax) :
    (generateQuestion mode (getMidiRange oMin oMax) diff r1 r2 coin).answer
        ∈ getChoices mode diff ∧
      ((generateIntervalQuestion (getMidiRange oMin oMax) diff r1 coin r2).ascending
          = false →
        diff.intervalPool = .allDescending ∧
          0 < (generateIntervalQuestion
                (getMidiRange oMin oMax) diff r1 coin r2).semitones) := by
  constructor
  · cases mode with
    | note =>
      dsimp only [generateQuestion, Question.answer, getChoices]
      refine noteQuestion_answer_mem _ _ _ ?_ ?_ ?_
      · dsimp only [getMidiRange]
        omega
      · dsimp only [getMidiRange]
        omega
      · exact List.ne_nil_of_mem (low_mem_naturalsInRange oMin oMax h1)
    | interval =>
      dsimp only [generateQuestion, Question.answer, getChoices]
      exact intervalQuestion_answer_mem _ _ _ _ _
    | chord =>
      dsimp only [generateQuestion, Question.answer, getChoices]
      exact chordQuestion_answer_mem _ _ _ _
  · rcases hb : (if diff.intervalPool = .allDescending ∧
        (selectedInterval diff r1).semitones > 0 then coin else true) with _ | _
    · obtain ⟨hpool, hspos⟩ := desc_implies_pool diff r1 coin hb
      rw [generateIntervalQuestion_desc _ _ _ _ _ hb]
      exact fun _ => ⟨hpool, hspos⟩
    · rw [generateIntervalQuestion_asc _ _ _ _ _ hb]
      intro hcontra
      exact absurd hcontra (by simp)

/-- Witness for `generateQuestion_answer_mem_choices`: interval mode, hard
difficulty, octaves 3–5, draws `4`, `9`, coin `false`. -/
theorem generateQuestion_answer_mem_choices_witness :
    ((-1 : ℤ) ≤ 3 ∧ (3 : ℤ) ≤ 5) ∧
      ((generateQuestion .interval (getMidiRange 3 5) (DIFFICULTY .hard) 4 9
            false).answer
          ∈ getChoices .interval (DIFFICULTY .hard) ∧
        ((generateIntervalQuestion (getMidiRange 3 5) (DIFFICULTY .hard) 4
              false 9).ascending = false →
          (DIFFICULTY .hard).intervalPool = .allDescending ∧
            0 < (generateIntervalQuestion (getMidiRange 3 5) (DIFFICULTY .hard)
                  4 false 9).semitones)) :=
  ⟨⟨by decide, by decide⟩,
    generateQuestion_answer_mem_choices .interval (DIFFICULTY .hard) 3 5 4 9
      false (by decide) (by decide)⟩

/-! ### 13. Adaptive difficulty tracker (`updateAdaptive`) -/

structure AdaptiveState where
  tier : ℕ
  history : List Bool
deriving DecidableEq, Repr

/-- `history.push(isCorrect); if (history.length > 10) history.shift()`. -/
def pushWindow (h : List Bool) (b : Bool) : List Bool :=
  let h1 := h ++ [b]
  if h1.length > 10 then h1.tail else h1

/-- `(ADAPTIVE_TIERS[mode] || []).length - 1`. -/
def maxTierFor (mode : Mode) : ℕ := (ADAPTIVE_TIERS mode).length - 1

/-- `correct / history.length` as an exact rational.  For the reachable
window sizes (≤ 10) the floating-point comparisons against `0.8` and `0.4`
in the source agree with the exact rational comparisons. -/
def accuracy (h : List Bool) : ℚ :=
  ((h.filter id).length : ℚ) / (h.length : ℚ)

def updateAdaptive (difficulty : DifficultyName) (mode : Mode)
    (s : AdaptiveState) (isCorrect : Bool) : AdaptiveState :=
  if difficulty ≠ .adaptive then s
  else
    let h := pushWindow s.history isCorrect
    if 5 ≤ h.length then
      if 8/10 ≤ accuracy h ∧ s.tier < maxTierFor mode then ⟨s.tier + 1, []⟩
      else if accuracy h < 4/10 ∧ 0 < s.tier then ⟨s.tier - 1, []⟩
      else ⟨s.tier, h⟩
    else ⟨s.tier, h⟩

/-- Folding `updateAdaptive` over a sequence of outcomes. -/
def runAdaptive (difficulty : DifficultyName) (mode : Mode)
    (s : AdaptiveState) (l : List Bool) : AdaptiveState :=
  l.foldl (updateAdaptive difficulty mode) s

theorem pushWindow_length_le {h : List Bool} (b : Bool)
    (h10 : h.length ≤ 10) : (pushWindow h b).length ≤ 10 := by
  have hl : (h ++ [b]).length = h.length + 1 := by simp
  simp only [pushWindow]
  by_cases hc : (h ++ [b]).length > 10
  · rw [if_pos hc]
    rw [List.length_tail]
    omega
  · rw [if_neg hc]
    omega

theorem updateAdaptive_adaptive_eq (mode : Mode) (s : AdaptiveState)
    (b : Bool) :
    updateAdaptive .adaptive mode s b =
      (if 5 ≤ (pushWindow s.history b).length then
        if 8/10 ≤ accuracy (pushWindow s.history b) ∧ s.tier < maxTierFor mode
          then ⟨s.tier + 1, []⟩
        else if accuracy (pushWindow s.history b) < 4/10 ∧ 0 < s.tier
          then ⟨s.tier - 1, []⟩
        else ⟨s.tier, pushWindow s.history b⟩
      else ⟨s.tier, pushWindow s.history b⟩) := by
  unfold updateAdaptive
  rw [if_neg (by simp)]

/-- One promoting streak step on an empty window: the window grows by one
while it holds fewer than five entries. -/
theorem updateAdaptive_small_window (mode : Mode) (t : ℕ) (h : List Bool)
    (b : Bool) (hlen : h.length < 4) :
    updateAdaptive .adaptive mode ⟨t, h⟩ b = ⟨t, h ++ [b]⟩ := by
  rw [updateAdaptive_adaptive_eq]
  have hpw : pushWindow h b = h ++ [b] := by
    unfold pushWindow
    rw [if_neg (by simp; omega)]
  rw [hpw]
  rw [if_neg (by simp; omega)]

/-- Five consecutive correct answers from an empty window promote the tier
by exactly one (unless already at the top tier) and clear the window. -/
theorem runAdaptive_five_correct (mode : Mode) (t : ℕ) :
    runAdaptive .adaptive mode ⟨t, []⟩ [true, true, true, true, true] =
      if t < maxTierFor mode then ⟨t + 1, []⟩
      else ⟨t, [true, true, true, true, true]⟩ := by
  unfold runAdaptive
  simp only [List.foldl]
  rw [updateAdaptive_small_window mode t [] true (by simp)]
  simp only [List.nil_append, List.cons_append]
  rw [updateAdaptive_small_window mode t [true] true (by simp)]
  simp only [List.nil_append, List.cons_append]
  rw [updateAdaptive_small_window mode t [true, true] true (by simp)]
  simp only [List.nil_append, List.cons_append]
  rw [updateAdaptive_small_window mode t [true, true, true] true (by simp)]
  simp only [List.nil_append, List.cons_append]
  rw [updateAdaptive_adaptive_eq]
  have hpw : pushWindow [true, true, true, true] true =
      [true, true, true, true, true] := by decide
  rw [hpw]
  have hacc : accuracy [true, true, true, true, true] = 1 := by
    simp [accuracy, List.filter]
  rw [if_pos (by simp)]
  by_cases ht : t < maxTierFor mode
  · rw [if_pos ⟨by rw [hacc]; norm_num, ht⟩, if_pos ht]
  · rw [if_neg (fun hc => ht hc.2),
      if_neg (fun hc => by rw [hacc] at hc; norm_num at hc), if_neg ht]

/-- C4: `updateAdaptive` appends the outcome to a FIFO window of at most 10
entries; with ≥ 5 entries and accuracy ≥ 0.8 below the top tier it promotes
one tier and clears the window; with accuracy < 0.4 above tier 0 it demotes
one tier and clears the window; otherwise the tier is unchanged and the
window is kept; consequently five consecutive correct outcomes from an empty
window raise the tier by exactly one (unless already at the top), and the
tier never leaves `[0, tierCount − 1]`. -/
theorem updateAdaptive_spec (mode : Mode) (s : AdaptiveState) (b : Bool)
    (u : AdaptiveState) (w : List Bool)
    (hu : u = updateAdaptive .adaptive mode s b)
    (hw : w = pushWindow s.history b)
    (h10 : s.history.length ≤ 10) :
    u.history.length ≤ 10 ∧
      (5 ≤ w.length → 8/10 ≤ accuracy w → s.tier < maxTierFor mode →
        u = ⟨s.tier + 1, []⟩) ∧
      (5 ≤ w.length → accuracy w < 4/10 → 0 < s.tier → u = ⟨s.tier - 1, []⟩) ∧
      (5 ≤ w.length → ¬(8/10 ≤ accuracy w ∧ s.tier < maxTierFor mode) →
        ¬(accuracy w < 4/10 ∧ 0 < s.tier) → u = ⟨s.tier, w⟩) ∧
      (w.length < 5 → u = ⟨s.tier, w⟩) ∧
      (s.tier ≤ maxTierFor mode → u.tier ≤ maxTierFor mode) ∧
      (runAdaptive .adaptive mode ⟨s.tier, []⟩ [true, true, true, true, true]
        = if s.tier < maxTierFor mode then ⟨s.tier + 1, []⟩
          else ⟨s.tier, [true, true, true, true, true]⟩) := by
  rw [updateAdaptive_adaptive_eq, ← hw] at hu
  have hwlen : w.length ≤ 10 := by
    rw [hw]
    exact pushWindow_length_le b h10
  refine ⟨?_, ?_, ?_, ?_, ?_, ?_, runAdaptive_five_correct mode s.tier⟩
  · by_cases h5 : 5 ≤ w.length
    · rw [if_pos h5] at hu
      by_cases hp : 8/10 ≤ accuracy w ∧ s.tier < maxTierFor mode
      · rw [if_pos hp] at hu
        simp [hu]
      · rw [if_neg hp] at hu
        by_cases hq : accuracy w < 4/10 ∧ 0 < s.tier
        · rw [if_pos hq] at hu
          simp [hu]
        · rw [if_neg hq] at hu
          rw [hu]
          exact hwlen
    · rw [if_neg h5] at hu
      rw [hu]
      exact hwlen
  · intro h5 hacc ht
    rw [if_pos h5, if_pos ⟨hacc, ht⟩] at hu
    exact hu
  · intro h5 hacc ht
    rw [if_pos h5] at hu
    have hne : ¬(8/10 ≤ accuracy w ∧ s.tier < maxTierFor mode) := by
      intro hc
      have := hc.1
      have h48 : (4 : ℚ)/10 < 8/10 := by norm_num
      exact absurd hacc (by push_neg; linarith)
    rw [if_neg hne, if_pos ⟨hacc, ht⟩] at hu
    exact hu
  · intro h5 hp hq
    rw [if_pos h5, if_neg hp, if_neg hq] at hu
    exact hu
  · intro h5
    rw [if_neg (by omega)] at hu
    exact hu
  · intro hbound
    by_cases h5 : 5 ≤ w.length
    · rw [if_pos h5] at hu
      by_cases hp : 8/10 ≤ accuracy w ∧ s.tier < maxTierFor mode
      · rw [if_pos hp] at hu
        rw [hu]
        dsimp only
        have := hp.2
        omega
      · rw [if_neg hp] at hu
        by_cases hq : accuracy w < 4/10 ∧ 0 < s.tier
        · rw [if_pos hq] at hu
          rw [hu]
          dsimp only
          omega
        · rw [if_neg hq] at hu
          rw [hu]
          exact hbound
    · rw [if_neg h5] at hu
      rw [hu]
      exact hbound

/-- Witness for `updateAdaptive_spec`: mode `note`, tier 0 with window
`[true, false, true, true]`, a fifth correct outcome (accuracy 4/5 = 0.8,
promoting to tier 1 with a cleared window). -/
theorem updateAdaptive_spec_witness :
    ((updateAdaptive .adaptive .note ⟨0, [true, false, true, true]⟩ true =
          updateAdaptive .adaptive .note ⟨0, [true, false, true, true]⟩ true) ∧
        (pushWindow [true, false, true, true] true =
          pushWindow [true, false, true, true] true) ∧
        ([true, false, true, true] : List Bool).length ≤ 10) ∧
      ((updateAdaptive .adaptive .note
            ⟨0, [true, false, true, true]⟩ true).history.length ≤ 10 ∧
        (5 ≤ (pushWindow [true, false, true, true] true).length →
          8/10 ≤ accuracy (pushWindow [true, false, true, true] true) →
          0 < maxTierFor .note →
          updateAdaptive .adaptive .note ⟨0, [true, false, true, true]⟩ true
            = ⟨0 + 1, []⟩) ∧
        (5 ≤ (pushWindow [true, false, true, true] true).length →
          accuracy (pushWindow [true, false, true, true] true) < 4/10 →
          0 < 0 →
          updateAdaptive .adaptive .note ⟨0, [true, false, true, true]⟩ true
            = ⟨0 - 1, []⟩) ∧
        (5 ≤ (pushWindow [true, false, true, true] true).length →
          ¬(8/10 ≤ accuracy (pushWindow [true, false, true, true] true) ∧
              0 < maxTierFor .note) →
          ¬(accuracy (pushWindow [true, false, true, true] true) < 4/10 ∧
              0 < 0) →
          updateAdaptive .adaptive .note ⟨0, [true, false, true, true]⟩ true
            = ⟨0, pushWindow [true, false, true, true] true⟩) ∧
        ((pushWindow [true, false, true, true] true).length < 5 →
          updateAdaptive .adaptive .note ⟨0, [true, false, true, true]⟩ true
            = ⟨0, pushWindow [true, false, true, true] true⟩) ∧
        (0 ≤ maxTierFor .note →
          (updateAdaptive .adaptive .note
            ⟨0, [true, false, true, true]⟩ true).tier ≤ maxTierFor .note) ∧
        (runAdaptive .adaptive .note ⟨0, []⟩ [true, true, true, true, true]
          = if 0 < maxTierFor .note then ⟨0 + 1, []⟩
            else ⟨0, [true, true, true, true, true]⟩)) :=
  ⟨⟨rfl, rfl, by decide⟩,
    updateAdaptive_spec .note ⟨0, [true, false, true, true]⟩ true
      (updateAdaptive .adaptive .note ⟨0, [true, false, true, true]⟩ true)
      (pushWindow [true, false, true, true] true) rfl rfl (by decide)⟩

/-! ### 14. Statistics aggregator (`getItemStats` / `getWeakest`) -/

/-- One row produced by `getItemStats`. -/
structure ItemStat where
  name : String
  correct : ℕ
  total : ℕ
  pct : ℕ
deriving DecidableEq, Repr

/-- `t > 0 ? Math.round((c / t) * 100) : 0`, i.e. round-half-up of `100·c/t`
(for the reachable counts the double computation agrees with the exact
rational rounding). -/
def pctOf (c t : ℕ) : ℕ :=
  if 0 < t then (200 * c + t) / (2 * t) else 0

def mkEntry : String × ℕ × ℕ → ItemStat :=
  fun e => ⟨e.1, e.2.1, e.2.2, pctOf e.2.1 e.2.2⟩

/-- The comparator `(a, b) => a.pct - b.pct` of the source's stable
`Array.prototype.sort`, as a stable merge sort on the `pct` key.
`items` is the per-mode object in first-encountered-key order. -/
def getItemStats (items : List (String × ℕ × ℕ)) : List ItemStat :=
  (items.map mkEntry).mergeSort (fun a b => decide (a.pct ≤ b.pct))

/-- `getWeakest`: `n = n || 3` (so `0` falls back to the default 3), filter
`total ≥ 3`, then `slice(0, n)`. -/
def getWeakest (items : List (String × ℕ × ℕ)) (n : ℕ) : List ItemStat :=
  let n' := if n = 0 then 3 else n
  ((getItemStats items).filter (fun s => decide (3 ≤ s.total))).take n'

theorem pctLe_trans : ∀ (a b c : ItemStat),
    decide (a.pct ≤ b.pct) = true → decide (b.pct ≤ c.pct) = true →
    decide (a.pct ≤ c.pct) = true := fun _ _ _ hab hbc =>
  decide_eq_true (le_trans (of_decide_eq_true hab) (of_decide_eq_true hbc))

theorem pctLe_total : ∀ (a b : ItemStat),
    (decide (a.pct ≤ b.pct) || decide (b.pct ≤ a.pct)) = true := by
  intro a b
  rcases le_total a.pct b.pct with h | h
  · simp [decide_eq_true h]
  · simp [decide_eq_true h]

/-- Stability of the sort: filtering by any predicate that forces mutually
`≤`-related `pct` values commutes with `mergeSort`. -/
theorem filter_mergeSort_stable (l : List ItemStat) (p : ItemStat → Bool)
    (hp : ∀ a b, p a = true → p b = true → a.pct ≤ b.pct) :
    (l.mergeSort (fun a b => decide (a.pct ≤ b.pct))).filter p
      = l.filter p := by
  have hsub : List.Sublist (l.filter p) l := List.filter_sublist l
  have hpw : (l.filter p).Pairwise
      (fun a b => decide (a.pct ≤ b.pct) = true) := by
    apply List.pairwise_of_forall_mem_list
    intro a ha b hb
    exact decide_eq_true (hp a b (List.of_mem_filter ha) (List.of_mem_filter hb))
  have h1 : List.Sublist (l.filter p)
      (l.mergeSort (fun a b => decide (a.pct ≤ b.pct))) :=
    List.sublist_mergeSort pctLe_trans pctLe_total hpw hsub
  have h2 : (l.filter p).filter p = l.filter p :=
    List.filter_eq_self.mpr fun a ha => List.of_mem_filter ha
  have h3 := h1.filter p
  rw [h2] at h3
  have hperm : List.Perm
      ((l.mergeSort (fun a b => decide (a.pct ≤ b.pct))).filter p)
      (l.filter p) :=
    (List.mergeSort_perm l _).filter p
  exact (h3.eq_of_length hperm.length_eq.symm).symm

/-- `filter` of a `take` is a prefix of the `filter` of the whole list. -/
theorem filter_take_prefix_filter {α : Type _} (l : List α) (n : ℕ)
    (p : α → Bool) : (l.take n).filter p <+: l.filter p :=
  ⟨(l.drop n).filter p, by rw [← List.filter_append, List.take_append_drop]⟩

/-- C5 (as amended): `getWeakest` returns only entries with `totalCount ≥ 3`,
sorted non-decreasing by percent-correct with ties kept in
first-encountered-key order, and returns at most `n` entries for every
`n ≥ 1` (`n = 0`, like an omitted argument, falls back to the default 3). -/
theorem getWeakest_spec (items : List (String × ℕ × ℕ)) (n : ℕ)
    (w : List ItemStat) (hwdef : w = getWeakest items n) :
    (∀ e ∈ w, 3 ≤ e.total) ∧
      (1 ≤ n → w.length ≤ n) ∧
      w.Pairwise (fun a b => a.pct ≤ b.pct) ∧
      (∀ k : ℕ, w.filter (fun e => e.pct == k) <+:
        (items.map mkEntry).filter
          (fun e => decide (3 ≤ e.total) && (e.pct == k))) := by
  subst hwdef
  unfold getWeakest
  dsimp only
  refine ⟨?_, ?_, ?_, ?_⟩
  · intro e he
    have h1 := List.mem_of_mem_take he
    have h2 := List.of_mem_filter h1
    exact of_decide_eq_true h2
  · intro hn
    rw [if_neg (by omega)]
    rw [List.length_take]
    omega
  · have hs : (getItemStats items).Pairwise
        (fun a b => decide (a.pct ≤ b.pct) = true) :=
      List.sorted_mergeSort pctLe_trans pctLe_total (items.map mkEntry)
    exact (((hs.filter _).take).imp (fun h => of_decide_eq_true h))
  · intro k
    refine (filter_take_prefix_filter _ _ _).trans ?_
    rw [List.filter_filter]
    have hstable :
        ((items.map mkEntry).mergeSort
            (fun a b => decide (a.pct ≤ b.pct))).filter
              (fun a => (a.pct == k) && decide (3 ≤ a.total))
          = (items.map mkEntry).filter
              (fun a => (a.pct == k) && decide (3 ≤ a.total)) := by
      apply filter_mergeSort_stable
      intro a b ha hb
      have ha' : a.pct = k := beq_iff_eq.mp ((Bool.and_eq_true _ _).mp ha).1
      have hb' : b.pct = k := beq_iff_eq.mp ((Bool.and_eq_true _ _).mp hb).1
      omega
    rw [show getItemStats items =
        (items.map mkEntry).mergeSort (fun a b => decide (a.pct ≤ b.pct))
      from rfl]
    rw [hstable]
    rw [List.filter_congr (fun a _ => by rw [Bool.and_comm])]

/-- Witness for `getWeakest_spec`: two items with 3 attempts each, `n = 1`. -/
theorem getWeakest_spec_witness :
    (getWeakest [("x", 1, 3), ("y", 3, 3)] 1 =
        getWeakest [("x", 1, 3), ("y", 3, 3)] 1) ∧
      ((∀ e ∈ getWeakest [("x", 1, 3), ("y", 3, 3)] 1, 3 ≤ e.total) ∧
        (1 ≤ 1 → (getWeakest [("x", 1, 3), ("y", 3, 3)] 1).length ≤ 1) ∧
        (getWeakest [("x", 1, 3), ("y", 3, 3)] 1).Pairwise
          (fun a b => a.pct ≤ b.pct) ∧
        (∀ k : ℕ, (getWeakest [("x", 1, 3), ("y", 3, 3)] 1).filter
            (fun e => e.pct == k) <+:
          ([("x", 1, 3), ("y", 3, 3)].map mkEntry).filter
            (fun e => decide (3 ≤ e.total) && (e.pct == k)))) :=
  ⟨rfl, getWeakest_spec [("x", 1, 3), ("y", 3, 3)] 1
    (getWeakest [("x", 1, 3), ("y", 3, 3)] 1) rfl⟩

/-- C5 counterexample: `n = 0` is replaced by the default (`n || 3`), so
`getWeakest` can return more than `n` entries: with one qualifying item it
returns 1 > 0 entries. -/
theorem getWeakest_zero_counterexample :
    (getWeakest [("a", 0, 3)] 0).length = 1 ∧
      ¬((getWeakest [("a", 0, 3)] 0).length ≤ 0) := by
  have h : getWeakest [("a", 0, 3)] 0 = [mkEntry ("a", 0, 3)] := by
    unfold getWeakest getItemStats
    rw [if_pos rfl]
    rw [show [("a", 0, 3)].map mkEntry = [mkEntry ("a", 0, 3)] from rfl]
    rw [List.mergeSort_singleton]
    rfl
  rw [h]
  exact ⟨rfl, by simp⟩

/-! ### 15. Persistence (`saveData` / `loadData`) -/

structure BestStreak where
  note : ℤ
  interval : ℤ
  chord : ℤ
deriving DecidableEq, Repr

structure Settings where
  octaveMin : ℤ
  octaveMax : ℤ
  waveform : String
  volume : ℚ
  referenceTone : Bool
deriving DecidableEq, Repr

/-- The initial `state.settings`. -/
def defaultSettings : Settings := ⟨3, 5, "triangle", 6/10, false⟩

/-- The initial `state.bestStreak`. -/
def defaultBestStreak : BestStreak := ⟨0, 0, 0⟩

structure TimedBest where
  note : ℕ
  interval : ℕ
  chord : ℕ
deriving DecidableEq, Repr

/-- `stats.items`: per-mode association lists in first-encountered-key order
(JavaScript object insertion order), value `[correct, total]`. -/
structure StatsItems where
  note : List (String × ℕ × ℕ)
  interval : List (String × ℕ × ℕ)
  chord : List (String × ℕ × ℕ)
deriving DecidableEq, Repr

structure Stats where
  items : StatsItems
  timedBest : TimedBest
  totalCorrect : ℕ
  totalQuestions : ℕ
deriving DecidableEq, Repr

/-- `defaultStats()`. -/
def defaultStats : Stats := ⟨⟨[], [], []⟩, ⟨0, 0, 0⟩, 0, 0⟩

/-- The persisted `bestStreak` field: a legacy scalar, or a record whose
sub-fields may be absent (read back with `|| 0`). -/
inductive SavedBestStreak
  | legacy (x : ℤ)
  | record (note interval chord : Option ℤ)
deriving DecidableEq, Repr

/-- The persisted `settings` object; `Object.assign` keeps the current value
for every absent key. -/
structure SettingsPatch where
  octaveMin : Option ℤ
  octaveMax : Option ℤ
  waveform : Option String
  volume : Option ℚ
  referenceTone : Option Bool
deriving DecidableEq, Repr

structure ItemsPatch where
  note : Option (List (String × ℕ × ℕ))
  interval : Option (List (String × ℕ × ℕ))
  chord : Option (List (String × ℕ × ℕ))
deriving DecidableEq, Repr

structure StatsPatch where
  items : Option ItemsPatch
  timedBest : Option TimedBest
  totalCorrect : Option ℕ
  totalQuestions : Option ℕ
deriving DecidableEq, Repr

structure SavedData where
  bestStreak : Option SavedBestStreak
  settings : Option SettingsPatch
  stats : Option StatsPatch
deriving DecidableEq, Repr

/-- What `localStorage.getItem` + `JSON.parse` can produce: no key, an
unparseable blob (the `catch` path), or a parsed snapshot. -/
inductive StoredValue
  | absent
  | corrupt
  | ok (d : SavedData)
deriving DecidableEq, Repr

def loadBestStreak (bs : BestStreak) : Option SavedBestStreak → BestStreak
  | some (.legacy x) => ⟨x, x, 0⟩
  | some (.record n i c) => ⟨n.getD 0, i.getD 0, c.getD 0⟩
  | none => bs

/-- `Object.assign(state.settings, data.settings)` followed by the
`typeof volume !== 'number'` repair; a missing `volume` keeps the current
value, which on a fresh default state is `0.6` exactly as the repair sets. -/
def loadSettings (st : Settings) : Option SettingsPatch → Settings
  | none => st
  | some p =>
    ⟨p.octaveMin.getD st.octaveMin, p.octaveMax.getD st.octaveMax,
      p.waveform.getD st.waveform, p.volume.getD st.volume,
      p.referenceTone.getD st.referenceTone⟩

/-- `Object.assign(defaultStats(), data.stats)` with the sub-object
repairs. -/
def loadStats (sx : Stats) : Option StatsPatch → Stats
  | none => sx
  | some p =>
    ⟨(match p.items with
      | none => ⟨[], [], []⟩
      | some ip => ⟨ip.note.getD [], ip.interval.getD [], ip.chord.getD []⟩),
      p.timedBest.getD ⟨0, 0, 0⟩,
      p.totalCorrect.getD 0,
      p.totalQuestions.getD 0⟩

def loadData (bs : BestStreak) (st : Settings) (sx : Stats) :
    StoredValue → BestStreak × Settings × Stats
  | .absent => (bs, st, sx)
  | .corrupt => (bs, st, sx)
  | .ok d =>
    (loadBestStreak bs d.bestStreak, loadSettings st d.settings,
      loadStats sx d.stats)

/-- The JSON payload written by `saveData`: every field present. -/
def saveData (bs : BestStreak) (st : Settings) (sx : Stats) : SavedData :=
  ⟨some (.record (some bs.note) (some bs.interval) (some bs.chord)),
    some ⟨some st.octaveMin, some st.octaveMax, some st.waveform,
      some st.volume, some st.referenceTone⟩,
    some ⟨some ⟨some sx.items.note, some sx.items.interval,
      some sx.items.chord⟩,
      some sx.timedBest, some sx.totalCorrect, some sx.totalQuestions⟩⟩

/-- C6: the loader keeps defaults for an absent key, silently discards
corrupt data, migrates a legacy scalar `bestStreak` `x` to
`{note: x, interval: x, chord: 0}`, defaults a missing `volume` to `0.6`,
initializes missing stats sub-objects to empty, and a save/load round-trip
into a fresh default state reproduces `bestStreak`, `settings` and `stats`
exactly. -/
theorem loadData_spec (x : ℤ) (p : SettingsPatch) (q : StatsPatch)
    (bs : BestStreak) (st : Settings) (sx : Stats)
    (hvol : p.volume = none) (hitems : q.items = none) :
    loadData defaultBestStreak defaultSettings defaultStats .absent
        = (defaultBestStreak, defaultSettings, defaultStats) ∧
      loadData defaultBestStreak defaultSettings defaultStats .corrupt
        = (defaultBestStreak, defaultSettings, defaultStats) ∧
      (loadData defaultBestStreak defaultSettings defaultStats
        (.ok ⟨some (.legacy x), none, none⟩)).1 = ⟨x, x, 0⟩ ∧
      (loadData defaultBestStreak defaultSettings defaultStats
        (.ok ⟨none, some p, none⟩)).2.1.volume = 6/10 ∧
      (loadData defaultBestStreak defaultSettings defaultStats
        (.ok ⟨none, none, some q⟩)).2.2.items = ⟨[], [], []⟩ ∧
      loadData defaultBestStreak defaultSettings defaultStats
        (.ok (saveData bs st sx)) = (bs, st, sx) := by
  refine ⟨rfl, rfl, rfl, ?_, ?_, rfl⟩
  · show (loadSettings defaultSettings (some p)).volume = 6/10
    unfold loadSettings
    dsimp only
    rw [hvol]
    rfl
  · show (loadStats defaultStats (some q)).items = ⟨[], [], []⟩
    unfold loadStats
    dsimp only
    rw [hitems]

/-- Witness for `loadData_spec` with concrete legacy value, patches, and a
concrete populated state for the round-trip. -/
theorem loadData_spec_witness :
    ((⟨some 1, some 2, some "sine", none, some true⟩ :
        SettingsPatch).volume = none ∧
      (⟨none, some ⟨1, 2, 3⟩, some 4, some 5⟩ : StatsPatch).items = none) ∧
      (loadData defaultBestStreak defaultSettings defaultStats .absent
          = (defaultBestStreak, defaultSettings, defaultStats) ∧
        loadData defaultBestStreak defaultSettings defaultStats .corrupt
          = (defaultBestStreak, defaultSettings, defaultStats) ∧
        (loadData defaultBestStreak defaultSettings defaultStats
          (.ok ⟨some (.legacy 7), none, none⟩)).1 = ⟨7, 7, 0⟩ ∧
        (loadData defaultBestStreak defaultSettings defaultStats
          (.ok ⟨none, some ⟨some 1, some 2, some "sine", none, some true⟩,
            none⟩)).2.1.volume = 6/10 ∧
        (loadData defaultBestStreak defaultSettings defaultStats
          (.ok ⟨none, none,
            some ⟨none, some ⟨1, 2, 3⟩, some 4, some 5⟩⟩)).2.2.items
          = ⟨[], [], []⟩ ∧
        loadData defaultBestStreak defaultSettings defaultStats
          (.ok (saveData ⟨1, 2, 3⟩ ⟨0, 6, "square", 1/2, true⟩
            ⟨⟨[("a", 1, 2)], [], [("Maj7", 0, 3)]⟩, ⟨9, 8, 7⟩, 10, 11⟩))
          = (⟨1, 2, 3⟩, ⟨0, 6, "square", 1/2, true⟩,
            ⟨⟨[("a", 1, 2)], [], [("Maj7", 0, 3)]⟩, ⟨9, 8, 7⟩, 10, 11⟩)) :=
  ⟨⟨rfl, rfl⟩,
    loadData_spec 7 ⟨some 1, some 2, some "sine", none, some true⟩
      ⟨none, some ⟨1, 2, 3⟩, some 4, some 5⟩ ⟨1, 2, 3⟩
      ⟨0, 6, "square", 1/2, true⟩
      ⟨⟨[("a", 1, 2)], [], [("Maj7", 0, 3)]⟩, ⟨9, 8, 7⟩, 10, 11⟩ rfl rfl⟩

/-! ### 16. Answer handling (`handleAnswer` / `recordStat`) -/

structure Score where
  correct : ℕ
  total : ℕ
deriving DecidableEq, Repr

/-- Update of one per-mode item map by `recordStat`: bump an existing key's
counters, or append a fresh `[correct?1:0, 1]` entry (object insertion
order). -/
def bumpItem (l : List (String × ℕ × ℕ)) (key : String) (isCorrect : Bool) :
    List (String × ℕ × ℕ) :=
  if l.any (fun e => e.1 == key) then
    l.map (fun e =>
      if e.1 == key then
        (e.1, e.2.1 + (if isCorrect then 1 else 0), e.2.2 + 1)
      else e)
  else l ++ [(key, if isCorrect then 1 else 0, 1)]

def recordStat (mode : Mode) (itemKey : String) (isCorrect : Bool)
    (sx : Stats) : Stats :=
  let items := match mode with
    | .note => StatsItems.mk (bumpItem sx.items.note itemKey isCorrect)
        sx.items.interval sx.items.chord
    | .interval => StatsItems.mk sx.items.note
        (bumpItem sx.items.interval itemKey isCorrect) sx.items.chord
    | .chord => StatsItems.mk sx.items.note sx.items.interval
        (bumpItem sx.items.chord itemKey isCorrect)
  ⟨items, sx.timedBest,
    sx.totalCorrect + (if isCorrect then 1 else 0), sx.totalQuestions + 1⟩

def bsGet (bs : BestStreak) : Mode → ℤ
  | .note => bs.note
  | .interval => bs.interval
  | .chord => bs.chord

def bsSet (bs : BestStreak) (mode : Mode) (v : ℤ) : BestStreak :=
  match mode with
  | .note => ⟨v, bs.interval, bs.chord⟩
  | .interval => ⟨bs.note, v, bs.chord⟩
  | .chord => ⟨bs.note, bs.interval, v⟩

/-- The session state touched by `handleAnswer` (DOM rendering and the
`setTimeout` continuation are outside the model; the synchronous
`timedAnswering := true` transition in timed mode is included). -/
structure GameState where
  mode : Mode
  difficulty : DifficultyName
  score : Score
  streak : ℕ
  bestStreak : BestStreak
  timedMode : Bool
  timedAnswering : Bool
  timerRemaining : ℤ
  currentAnswer : String
  userAnswer : Option String
  adaptive : AdaptiveState
  stats : Stats
deriving DecidableEq, Repr

def handleAnswer (s : GameState) (answer : String) : GameState :=
  if s.timedAnswering then s
  else if s.timedMode = true ∧ s.timerRemaining ≤ 0 then s
  else
    let isCorrect : Bool := answer == s.currentAnswer
    let streak' := if isCorrect then s.streak + 1 else 0
    { s with
      userAnswer := some answer,
      score := ⟨s.score.correct + (if isCorrect then 1 else 0),
        s.score.total + 1⟩,
      streak := streak',
      bestStreak :=
        if isCorrect ∧ bsGet s.bestStreak s.mode < (streak' : ℤ) then
          bsSet s.bestStreak s.mode (streak' : ℤ)
        else s.bestStreak,
      stats := recordStat s.mode s.currentAnswer isCorrect s.stats,
      adaptive := updateAdaptive s.difficulty s.mode s.adaptive isCorrect,
      timedAnswering := if s.timedMode then true else s.timedAnswering }

/-- C7: in timed mode, an answer arriving after the round has ended
(`timerRemaining ≤ 0`) or during a transition (`timedAnswering`) is
silently ignored: `handleAnswer` returns the state unchanged, so score,
streak, best streak, statistics and adaptive state are all unmodified. -/
theorem handleAnswer_stale (s : GameState) (answer : String)
    (htimed : s.timedMode = true)
    (hstale : s.timerRemaining ≤ 0 ∨ s.timedAnswering = true) :
    handleAnswer s answer = s := by
  unfold handleAnswer
  by_cases h1 : s.timedAnswering = true
  · rw [if_pos h1]
  · rw [if_neg h1]
    rcases hstale with h | h
    · rw [if_pos ⟨htimed, h⟩]
    · exact absurd h h1

/-- Witness for `handleAnswer_stale`: a timed session whose timer has just
expired. -/
theorem handleAnswer_stale_witness :
    ((⟨.note, .easy, ⟨3, 4⟩, 2, ⟨2, 0, 0⟩, true, false, 0, "C", none,
        ⟨0, []⟩, defaultStats⟩ : GameState).timedMode = true ∧
      ((⟨.note, .easy, ⟨3, 4⟩, 2, ⟨2, 0, 0⟩, true, false, 0, "C", none,
        ⟨0, []⟩, defaultStats⟩ : GameState).timerRemaining ≤ 0 ∨
        (⟨.note, .easy, ⟨3, 4⟩, 2, ⟨2, 0, 0⟩, true, false, 0, "C", none,
        ⟨0, []⟩, defaultStats⟩ : GameState).timedAnswering = true)) ∧
      handleAnswer
        ⟨.note, .easy, ⟨3, 4⟩, 2, ⟨2, 0, 0⟩, true, false, 0, "C", none,
          ⟨0, []⟩, defaultStats⟩ "C"
        = ⟨.note, .easy, ⟨3, 4⟩, 2, ⟨2, 0, 0⟩, true, false, 0, "C", none,
          ⟨0, []⟩, defaultStats⟩ :=
  ⟨⟨rfl, Or.inl (by decide)⟩,
    handleAnswer_stale
      ⟨.note, .easy, ⟨3, 4⟩, 2, ⟨2, 0, 0⟩, true, false, 0, "C", none,
        ⟨0, []⟩, defaultStats⟩ "C" rfl (Or.inl (by decide))⟩

/-! ### 17. Tone synthesis: pitch-to-frequency -/

/-- `midiToFreq`: `440 * Math.pow(2, (midi - 69) / 12)`, with the IEEE
doubles of the source modelled by exact reals. -/
noncomputable def midiToFreq (midi : ℤ) : ℝ :=
  440 * (2 : ℝ) ^ (((midi : ℝ) - 69) / 12)

/-- C8: the synthesized frequency is the standard equal-tempered mapping
`440 · 2^((m − 69)/12)`: pitch 69 maps to exactly 440 Hz and every +12
semitones doubles the frequency. -/
theorem midiToFreq_spec : ∀ m : ℤ,
    midiToFreq m = 440 * (2 : ℝ) ^ (((m : ℝ) - 69) / 12) ∧
      midiToFreq 69 = 440 ∧
      midiToFreq (m + 12) = 2 * midiToFreq m := by
  intro m
  refine ⟨rfl, ?_, ?_⟩
  · unfold midiToFreq
    norm_num
  · unfold midiToFreq
    have hcast : ((m + 12 : ℤ) : ℝ) = (m : ℝ) + 12 := by push_cast; ring
    rw [hcast]
    have hx : ((m : ℝ) + 12 - 69) / 12 = ((m : ℝ) - 69) / 12 + 1 := by ring
    rw [hx, Real.rpow_add (by norm_num), Real.rpow_one]
    ring

end PitchTrainer
